import Mathlib

/-!
# Verification of the service orchestrator (`run_all.py`)

A shallow embedding of the orchestrator in `run_all.py`: artifact
resolution (`ensure_model` / `latest_model_tar`), readiness probing
(`wait_for_url` / `is_url_ok`), UI port selection (`port_free` /
`start_streamlit`), the supervision loop of `main` (failure streak,
restart, artifact reuse), and the shutdown path (the `finally` block).

Conventions of the embedding:
* A network request (`requests.get`) is modelled by its observable
  outcome: either a response carrying its `ok` flag, or a raised
  exception (connection error, nonconforming occupant, timeout).
* Time is measured in tenths of a second, so `time.sleep(0.8)` advances
  the clock by 8 and a `timeout_sec` of `t` gives a deadline of `10 * t`.
* File names in `models/` are modelled by an inductive type recording
  the one fact the code inspects about a name: whether it matches the
  glob `*.tar.gz`.  `production.tar.gz` is the distinguished name
  `FileName.production`; `FileName.model i` are the other `*.tar.gz`
  files; `FileName.other i` are files not matching the glob.
* A file system is an association list of (name, mtime, content).
* An OS process is modelled by the two facts the orchestrator's
  terminate/kill policy can observe: whether it is running and whether
  it exits within the grace period after a graceful `terminate()`.
-/

/-- Outcome of one `requests.get` call: a response with its `ok` flag
(`r.ok`), or an exception raised by the transport layer. -/
inductive ProbeOutcome : Type
  | resp (ok : Bool)
  | exn
deriving DecidableEq

/-- `r.ok` of a probe outcome, with an exception counting as not ok.
This is the success test shared by `wait_for_url` (line 57) and
`is_url_ok` (line 68) of `run_all.py`. -/
def outcomeOk : ProbeOutcome → Bool
  | .resp b => b
  | .exn => false

/-- `is_url_ok(url, timeout_sec)` from `run_all.py` lines 65–70: a
single `requests.get`, returning `bool(r.ok)`; any exception is caught
and yields `False`.  The probe outcome is the function's one input, so
one call performs exactly one probe. -/
def is_url_ok (probe : ProbeOutcome) : Bool :=
  match probe with
  | .resp b => b
  | .exn => false

/-- `port_free(port)` from `run_all.py` lines 105–110: issue one GET
with a 1-second budget; if it completes with any response at all,
report the port occupied (`False`); if it raises — connection refused,
a non-HTTP occupant, or a response slower than the budget — report the
port free (`True`). -/
def port_free (probe : ProbeOutcome) : Bool :=
  match probe with
  | .resp _ => false
  | .exn => true

/-- `start_streamlit(port)` from `run_all.py` lines 113–128, returning
the data the spec talks about: the chosen port, the spawn argument
list, and the URL handed to the `webbrowser.open` side effect.
`portProbe` is the outcome of the `port_free` probe of the default
port. -/
def start_streamlit (portProbe : ProbeOutcome) (port : Nat) :
    Nat × List String × String :=
  let chosen_port := if port_free portProbe then port else port + 1
  (chosen_port,
   ["-m", "streamlit", "run", "streamlit_app.py",
    "--server.port", toString chosen_port,
    "--server.headless", "true",
    "--browser.gatherUsageStats", "false"],
   "http://localhost:" ++ toString chosen_port ++ "/")

/-- The polling loop of `wait_for_url` (`run_all.py` lines 53–62),
with time in tenths of a second.  `probe k` gives the outcome of the
`k`-th `requests.get` together with its duration (the `timeout=3`
bound makes durations finite but otherwise arbitrary).  At clock `t`:
if `t < deadline` the loop issues the next probe, returns `True` on
`r.ok`, and otherwise advances the clock past the probe and the
`time.sleep(0.8)` before retrying; once `t ≥ deadline` it returns
`False`. -/
def waitLoop (probe : Nat → ProbeOutcome × Nat) (deadline t : Nat) : Bool :=
  if t < deadline then
    if outcomeOk (probe 0).1 then true
    else waitLoop (fun n => probe (n + 1)) deadline (t + (probe 0).2 + 8)
  else false
termination_by deadline - t
decreasing_by simp_wf; omega

/-- `wait_for_url(url, timeout_sec)` from `run_all.py` lines 52–62:
`deadline = time.time() + timeout_sec` with the start of the call as
time zero. -/
def wait_for_url (probe : Nat → ProbeOutcome × Nat) (timeout_sec : Nat) : Bool :=
  waitLoop probe (10 * timeout_sec) 0

/-- The clock value at which the `k`-th probe is issued, assuming the
loop reaches it: each earlier probe contributes its duration plus the
fixed 0.8-second sleep. -/
def issueTime (probe : Nat → ProbeOutcome × Nat) : Nat → Nat
  | 0 => 0
  | k + 1 => (probe 0).2 + 8 + issueTime (fun n => probe (n + 1)) k

/-- A file name in `models/`, recording the one fact the code inspects:
whether it matches the glob `*.tar.gz`.  `production` is the fixed
name `production.tar.gz`; `model i` are the other `*.tar.gz` files;
`other i` are files not matching the glob. -/
inductive FileName : Type
  | production
  | model (i : Nat)
  | other (i : Nat)
deriving DecidableEq

/-- Whether a name matches the glob `*.tar.gz` of
`MODELS_DIR.glob` (`run_all.py` line 19).  `production.tar.gz` itself
matches. -/
def isTarGz : FileName → Bool
  | .production => true
  | .model _ => true
  | .other _ => false

/-- A managed OS process, by the two facts the orchestrator's
terminate/kill policy can observe: whether it is currently running and
whether it exits within the 5-second grace period after a graceful
`terminate()`. -/
structure Proc : Type where
  running : Bool
  exitsOnTerm : Bool
deriving DecidableEq

/-- `proc.terminate()`: the process stops within the grace period only
if it honors the signal. -/
def terminateProc (p : Proc) : Proc :=
  if p.exitsOnTerm then { p with running := false } else p

/-- `proc.kill()`: the process always stops. -/
def killProc (p : Proc) : Proc :=
  { p with running := false }

/-- The graceful-then-forced stop policy used both by the supervised
restart (`run_all.py` lines 154–158) and by the `finally` cleanup
(lines 173–177): `terminate()`, `wait(timeout=5)`, and `kill()` if the
wait times out. -/
def stopPolicy (p : Proc) : Proc :=
  let p1 := terminateProc p
  if p1.running then killProc p1 else p1

/-- The restart path first checks `core_proc.poll() is None`
(line 153) and only then applies the stop policy. -/
def stopIfRunning (p : Proc) : Proc :=
  if p.running then stopPolicy p else p

/-- The mutable state of the supervision loop in `main`
(`run_all.py` lines 144–164): the consecutive-failure counter, the
artifact path resolved once by `ensure_model` before the loop, and the
dialogue-service (core) process handle. -/
structure SupState : Type where
  unhealthy_streak : Nat
  model_path : FileName
  core_proc : Proc
deriving DecidableEq

/-- What spawning the core server can do: return a handle or raise. -/
inductive SpawnErr : Type
  | spawnFailure
deriving DecidableEq

/-- One iteration of the supervision loop body (`run_all.py` lines
147–164), given the outcome of this round's single-shot `/status`
probe and the `start_core_server` spawner.  Returns the new state, the
relaunch event (the artifact path passed to the launcher, if a restart
happened), and the error if the relaunch itself raised. -/
def loopIter (spawn : FileName → Except SpawnErr Proc)
    (probe : ProbeOutcome) (st : SupState) :
    SupState × Option FileName × Option SpawnErr :=
  if is_url_ok probe then
    ({ st with unhealthy_streak := 0 }, none, none)
  else
    let st1 := { st with unhealthy_streak := st.unhealthy_streak + 1 }
    if 3 ≤ st1.unhealthy_streak then
      let stopped := stopIfRunning st1.core_proc
      match spawn st1.model_path with
      | .error e => ({ st1 with core_proc := stopped }, none, some e)
      | .ok p =>
        ({ st1 with unhealthy_streak := 0, core_proc := p },
         some st1.model_path, none)
    else
      (st1, none, none)

/-- Whether an iteration attempted a restart (the threshold was
breached), successfully or not. -/
def restartAttempted (r : SupState × Option FileName × Option SpawnErr) : Bool :=
  r.2.1.isSome || r.2.2.isSome

/-- The supervision loop run over a finite schedule of probe outcomes
(the loop in the source runs until interrupt; a schedule models the
probes observed up to that point).  Returns the final state, the
number of restarts performed, and the error that aborted the loop, if
any; an error stops iteration immediately, as an uncaught exception
leaves the `while` loop. -/
def runLoop (spawn : FileName → Except SpawnErr Proc)
    (probes : List ProbeOutcome) (st : SupState) :
    SupState × Nat × Option SpawnErr :=
  match probes with
  | [] => (st, 0, none)
  | p :: rest =>
    match loopIter spawn p st with
    | (st1, _, some e) => (st1, 0, some e)
    | (st1, ev, none) =>
      let r := runLoop spawn rest st1
      (r.1, (if ev.isSome then 1 else 0) + r.2.1, r.2.2)

/-- A spawner that always succeeds, for exercising the counter logic. -/
def spawnOk : FileName → Except SpawnErr Proc :=
  fun _ => .ok { running := true, exitsOnTerm := true }

/-- The three managed-service roles of the orchestrator. -/
inductive Role : Type
  | actionsService
  | coreService
  | uiService
deriving DecidableEq

/-- The order in which `main` starts the services
(`run_all.py` lines 134–136): actions, then core, then UI. -/
def startOrder : List Role :=
  [Role.actionsService, Role.coreService, Role.uiService]

/-- The `finally` cleanup of `main` (`run_all.py` lines 168–179): walk
the handles in the order `[ui_proc, core_proc, actions_proc]`,
skipping any that was never started, and apply the graceful-then-kill
stop policy to each. -/
def cleanupSeq (uiP coreP actionsP : Option Proc) : List (Role × Proc) :=
  ([(Role.uiService, uiP), (Role.coreService, coreP),
    (Role.actionsService, actionsP)]).filterMap
    (fun rp => rp.2.map (fun p => (rp.1, stopPolicy p)))

/-- `main` after its three launches, abstracted over the probe
schedule: run the supervision loop with the artifact path resolved
once before the loop, then — on the interrupt path (schedule
exhausted) and on the fatal-error path alike — run the `finally`
cleanup over all three managed processes.  Returns the loop's error,
if any, and the cleanup sequence. -/
def mainModel (spawn : FileName → Except SpawnErr Proc)
    (probes : List ProbeOutcome) (mp : FileName)
    (core0 actionsP uiP : Proc) :
    Option SpawnErr × List (Role × Proc) :=
  let r := runLoop spawn probes ⟨0, mp, core0⟩
  (r.2.2, cleanupSeq (some uiP) (some r.1.core_proc) (some actionsP))

/-- An entry of the `models/` directory: name, modification time,
content (an opaque token standing for the file's bytes). -/
abbrev Entry : Type := FileName × Nat × Nat

/-- Look a name up in a directory listing (first match). -/
def getFile (files : List Entry) (nm : FileName) : Option (Nat × Nat) :=
  match files with
  | [] => none
  | e :: rest => if e.1 = nm then some e.2 else getFile rest nm

/-- `Path.exists()` over the listing. -/
def existsFile (files : List Entry) (nm : FileName) : Bool :=
  (getFile files nm).isSome

/-- `prod.write_bytes(...)`: replace the entry in place, or create it;
the write stamps the current time as the new modification time. -/
def setFile (files : List Entry) (nm : FileName) (mt ct : Nat) : List Entry :=
  match files with
  | [] => [(nm, mt, ct)]
  | e :: rest => if e.1 = nm then (nm, mt, ct) :: rest
                 else e :: setFile rest nm mt ct

/-- Head of `sorted(candidates, key=mtime, reverse=True)`: the
earliest-listed entry of maximal modification time (Python's sort is
stable, so ties keep directory order). -/
def maxByMtime : List Entry → Option Entry
  | [] => none
  | x :: xs =>
    match maxByMtime xs with
    | none => some x
    | some y => if y.2.1 > x.2.1 then some y else some x

/-- `latest_model_tar()` from `run_all.py` lines 17–20: the most
recently modified `*.tar.gz` in `models/`, or `None` if there is
none. -/
def latest_model_tar (files : List Entry) : Option Entry :=
  maxByMtime (files.filter (fun e => isTarGz e.1))

/-- How `ensure_model` can fail: the training subprocess exits
non-zero (`subprocess.run(..., check=True)` raises), or training
succeeds but `models/` still has no `*.tar.gz`
(the `RuntimeError` of line 39). -/
inductive EnsureErr : Type
  | buildFailure
  | trainedButNoModel
deriving DecidableEq

/-- The condition of `run_all.py` line 43: `production.tar.gz` is
missing, or strictly older than the freshly selected candidate. -/
def needSync (files : List Entry) (l : Entry) : Bool :=
  match getFile files FileName.production with
  | none => true
  | some (mt, _) => decide (mt < l.2.1)

/-- Lines 41–49 of `run_all.py`: try to copy the latest candidate's
bytes onto `production.tar.gz` when it is missing or outdated
(`copyOk` records whether the read/write raised — a failure is
swallowed), then return `production.tar.gz` if it exists, else the
latest candidate.  `now` is the clock value stamped by the write. -/
def syncProd (files : List Entry) (l : Entry) (copyOk : Bool) (now : Nat) :
    List Entry × Except EnsureErr FileName :=
  let files' := if needSync files l && copyOk
                then setFile files FileName.production now l.2.2
                else files
  (files',
   .ok (if existsFile files' FileName.production then FileName.production
        else l.1))

/-- `ensure_model()` from `run_all.py` lines 23–49.  `build` is the
black-box `python -m rasa train` step: it returns the directory
listing it leaves behind and whether it exited zero (`check=True`
raises on a non-zero exit).  Returns the final directory listing and
either the resolved path or the error that aborted startup. -/
def ensure_model (files : List Entry) (build : List Entry → List Entry × Bool)
    (copyOk : Bool) (now : Nat) : List Entry × Except EnsureErr FileName :=
  match latest_model_tar files with
  | some l => syncProd files l copyOk now
  | none =>
    let b := build files
    if b.2 then
      match latest_model_tar b.1 with
      | some l => syncProd b.1 l copyOk now
      | none => (b.1, .error .trainedButNoModel)
    else (b.1, .error .buildFailure)

deriving instance DecidableEq for Except

theorem issueTime_succ (probe : Nat → ProbeOutcome × Nat) (k : Nat) :
    issueTime probe (k + 1) = issueTime probe k + (probe k).2 + 8 := by
  induction k generalizing probe with
  | zero => simp [issueTime]
  | succ k ih =>
    rw [issueTime, ih, issueTime]
    omega

theorem waitLoop_true_iff (fuel : Nat) :
    ∀ (probe : Nat → ProbeOutcome × Nat) (deadline t : Nat),
      deadline - t ≤ fuel →
      (waitLoop probe deadline t = true ↔
        ∃ k, t + issueTime probe k < deadline ∧ outcomeOk (probe k).1 = true) := by
  induction fuel with
  | zero =>
    intro probe deadline t hf
    unfold waitLoop
    have hnot : ¬ t < deadline := by omega
    simp only [hnot, if_false]
    constructor
    · intro h; exact absurd h (by simp)
    · rintro ⟨k, hk, -⟩
      exact absurd hk (by omega)
  | succ fuel ih =>
    intro probe deadline t hf
    by_cases ht : t < deadline
    · rw [waitLoop]
      simp only [ht, if_true]
      by_cases hok : outcomeOk (probe 0).1 = true
      · rw [if_pos hok]
        constructor
        · intro _
          exact ⟨0, by simpa [issueTime] using ht, hok⟩
        · intro _; rfl
      · rw [if_neg hok]
        rw [ih (fun n => probe (n + 1)) deadline (t + (probe 0).2 + 8) (by omega)]
        constructor
        · rintro ⟨k, hk, hkok⟩
          refine ⟨k + 1, ?_, hkok⟩
          rw [issueTime]
          omega
        · rintro ⟨k, hk, hkok⟩
          cases k with
          | zero => exact absurd hkok (by simpa [issueTime] using hok)
          | succ k =>
            refine ⟨k, ?_, hkok⟩
            rw [issueTime] at hk
            omega
    · rw [waitLoop]
      simp only [ht, if_false]
      constructor
      · intro h; exact absurd h (by simp)
      · rintro ⟨k, hk, -⟩
        exact absurd hk (by omega)

/-- C5: `wait_for_url` returns `true` iff some probe issued strictly
before the deadline observes a successful response; otherwise (every
probe fails, or the timeout elapses before any succeeds) it returns
`false` — it is a total boolean function with no failure path.
Successive probe attempts are separated by the probe's own duration
plus the fixed sub-second sleep of 0.8 s. -/
theorem wait_for_url_iff_C5 (probe : Nat → ProbeOutcome × Nat) (timeout_sec : Nat) :
    (wait_for_url probe timeout_sec = true ↔
      ∃ k, issueTime probe k < 10 * timeout_sec ∧ outcomeOk (probe k).1 = true) ∧
    (∀ k, issueTime probe (k + 1) = issueTime probe k + (probe k).2 + 8) := by
  constructor
  · have h := waitLoop_true_iff (10 * timeout_sec) probe (10 * timeout_sec) 0 (by omega)
    simpa [wait_for_url] using h
  · intro k; exact issueTime_succ probe k

/-- C6: neither prober propagates an error.  `is_url_ok` maps a raised
transport error or timeout to `false` and a response to its `ok` flag
(so any non-success response is unhealthy); it consumes exactly one
probe outcome per call.  `wait_for_url` likewise signals through its
boolean result only: if every probe it could issue fails, it returns
`false`. -/
theorem probers_no_propagation_C6 :
    (is_url_ok ProbeOutcome.exn = false) ∧
    (∀ b : Bool, is_url_ok (ProbeOutcome.resp b) = b) ∧
    (∀ (probe : Nat → ProbeOutcome × Nat) (timeout_sec : Nat),
      (∀ k, outcomeOk (probe k).1 = false) →
      wait_for_url probe timeout_sec = false) := by
  refine ⟨rfl, fun b => rfl, ?_⟩
  intro probe timeout_sec hall
  by_contra h
  have h' : wait_for_url probe timeout_sec = true := by
    cases hw : wait_for_url probe timeout_sec
    · exact absurd hw h
    · rfl
  have hiff := waitLoop_true_iff (10 * timeout_sec) probe (10 * timeout_sec) 0 (by omega)
  rw [wait_for_url] at h'
  obtain ⟨k, -, hk⟩ := hiff.mp h'
  rw [hall k] at hk
  exact absurd hk (by simp)

/-- Witness for C6 at a concrete input: a probe schedule that always
raises makes `wait_for_url` return `false`. -/
theorem probers_no_propagation_C6_witness :
    wait_for_url (fun _ => (ProbeOutcome.exn, 0)) 1 = false :=
  probers_no_propagation_C6.2.2 (fun _ => (ProbeOutcome.exn, 0)) 1 (fun _ => rfl)

/-- C10: `port_free` reports the port occupied exactly when the GET
completes with a response of any status whatsoever, and reports it free
on every raised exception.  Hence a genuinely occupied port whose
occupant makes the probe raise (non-HTTP occupant, slow response) is
reported free. -/
theorem port_free_classification_C10 :
    (∀ b : Bool, port_free (ProbeOutcome.resp b) = false) ∧
    port_free ProbeOutcome.exn = true := by
  constructor
  · intro b; rfl
  · rfl

/-- C9: when the default-port probe reports the port occupied,
`start_streamlit` chooses exactly `port + 1`; when it reports it free,
it chooses `port`.  In both cases the chosen port is the one appearing
in the `--server.port` spawn argument and in the URL opened in the web
viewer. -/
theorem start_streamlit_port_C9 (probe : ProbeOutcome) (port : Nat) :
    ((start_streamlit probe port).1
      = if port_free probe then port else port + 1) ∧
    ((start_streamlit probe port).2.1.get? 5
      = some (toString (start_streamlit probe port).1)) ∧
    ((start_streamlit probe port).2.2
      = "http://localhost:" ++ toString (start_streamlit probe port).1 ++ "/") := by
  refine ⟨rfl, ?_, rfl⟩
  simp [start_streamlit]

/-- C3: in one iteration of the supervision loop, a successful probe
resets the failure counter to zero; with a spawner that succeeds, a
failed probe resets the counter exactly when the incremented streak
reaches the threshold 3 and otherwise just increments it; a restart is
attempted exactly when the probe failed and the incremented streak
reaches 3; and on the schedule fail, fail, success, fail, fail, fail
the loop performs exactly one restart, which has not yet happened one
probe earlier. -/
theorem health_counter_C3 (st : SupState) (probe : ProbeOutcome)
    (mp : FileName) (pr : Proc) :
    ((loopIter spawnOk probe st).1.unhealthy_streak
      = if is_url_ok probe then 0
        else if 3 ≤ st.unhealthy_streak + 1 then 0
        else st.unhealthy_streak + 1) ∧
    (∀ spawn, restartAttempted (loopIter spawn probe st)
      = (!is_url_ok probe && decide (3 ≤ st.unhealthy_streak + 1))) ∧
    ((runLoop spawnOk
        [ProbeOutcome.exn, ProbeOutcome.exn, ProbeOutcome.resp true,
         ProbeOutcome.exn, ProbeOutcome.exn, ProbeOutcome.exn]
        ⟨0, mp, pr⟩).2.1 = 1) ∧
    ((runLoop spawnOk
        [ProbeOutcome.exn, ProbeOutcome.exn, ProbeOutcome.resp true,
         ProbeOutcome.exn, ProbeOutcome.exn]
        ⟨0, mp, pr⟩).2.1 = 0) := by
  refine ⟨?_, ?_, rfl, rfl⟩
  · rw [loopIter]
    by_cases hok : is_url_ok probe = true
    · rw [if_pos hok, if_pos hok]
    · rw [if_neg hok, if_neg hok]
      by_cases h3 : 3 ≤ st.unhealthy_streak + 1
      · rw [if_pos h3, if_pos h3]
        rfl
      · rw [if_neg h3, if_neg h3]
  · intro spawn
    rw [loopIter]
    by_cases hok : is_url_ok probe = true
    · rw [if_pos hok]
      simp [restartAttempted, hok]
    · rw [if_neg hok]
      by_cases h3 : 3 ≤ st.unhealthy_streak + 1
      · rw [if_pos h3]
        cases hsp : spawn st.model_path with
        | error e => simp [restartAttempted, hsp, hok, h3]
        | ok p => simp [restartAttempted, hsp, hok, h3]
      · rw [if_neg h3]
        simp [restartAttempted, hok, h3]

/-- C4: neither an iteration of the supervision loop nor any run of it
changes the artifact-path binding, and whenever an iteration relaunches
the dialogue service, the path it hands to the launcher is exactly the
state's artifact path — the artifact is never re-resolved between the
initial launch and any number of restarts. -/
theorem restart_preserves_artifact_C4
    (spawn : FileName → Except SpawnErr Proc)
    (probes : List ProbeOutcome) (st : SupState) :
    ((runLoop spawn probes st).1.model_path = st.model_path) ∧
    (∀ probe,
      (loopIter spawn probe st).1.model_path = st.model_path ∧
      ((loopIter spawn probe st).2.1 = none ∨
       (loopIter spawn probe st).2.1 = some st.model_path)) := by
  have hiter : ∀ (probe : ProbeOutcome) (s : SupState),
      (loopIter spawn probe s).1.model_path = s.model_path ∧
      ((loopIter spawn probe s).2.1 = none ∨
       (loopIter spawn probe s).2.1 = some s.model_path) := by
    intro probe s
    rw [loopIter]
    by_cases hok : is_url_ok probe = true
    · rw [if_pos hok]
      exact ⟨rfl, Or.inl rfl⟩
    · rw [if_neg hok]
      by_cases h3 : 3 ≤ s.unhealthy_streak + 1
      · rw [if_pos h3]
        cases hsp : spawn s.model_path with
        | error e => exact ⟨rfl, Or.inl rfl⟩
        | ok p => exact ⟨rfl, Or.inr rfl⟩
      · rw [if_neg h3]
        exact ⟨rfl, Or.inl rfl⟩
  refine ⟨?_, fun probe => hiter probe st⟩
  induction probes generalizing st with
  | nil => rfl
  | cons p rest ih =>
    rw [runLoop]
    cases hit : loopIter spawn p st with
    | mk st1 rest1 =>
      cases rest1 with
      | mk ev err =>
        have hmp : st1.model_path = st.model_path := by
          have := (hiter p st).1
          rw [hit] at this
          exact this
        cases err with
        | none => simpa using (ih st1).trans hmp
        | some e => simpa using hmp

/-- C7: the cleanup path stops the managed processes in the reverse of
their start order; the graceful-terminate-then-forced-kill policy
leaves any process not running; and on both exit paths of `main` —
interrupt and fatal loop error — every process in the cleanup sequence
ends not running. -/
theorem shutdown_terminates_all_C7 :
    (∀ u c a : Proc,
      (cleanupSeq (some u) (some c) (some a)).map Prod.fst
        = startOrder.reverse) ∧
    (∀ p : Proc, (stopPolicy p).running = false) ∧
    (∀ (spawn : FileName → Except SpawnErr Proc)
       (probes : List ProbeOutcome) (mp : FileName) (core0 aP uP : Proc),
      ((mainModel spawn probes mp core0 aP uP).2.all
        (fun rp => !rp.2.running)) = true) := by
  have hstop : ∀ p : Proc, (stopPolicy p).running = false := by
    intro p
    rcases p with ⟨r, e⟩
    cases r <;> cases e <;> rfl
  refine ⟨fun u c a => rfl, hstop, ?_⟩
  intro spawn probes mp core0 aP uP
  simp [mainModel, cleanupSeq, hstop]

/-- C8: if, at the threshold breach, relaunching the dialogue service
itself raises, the error propagates out of the supervision loop — the
remaining probe schedule is never consulted — and `main`'s result is
that error together with the cleanup sequence over the already-started
processes. -/
theorem restart_failure_fatal_C8 (e : SpawnErr) (mp : FileName)
    (c aP uP : Proc) (rest : List ProbeOutcome) :
    (runLoop (fun _ => .error e)
        ([ProbeOutcome.exn, ProbeOutcome.exn, ProbeOutcome.exn] ++ rest)
        ⟨0, mp, c⟩
      = (⟨3, mp, stopIfRunning c⟩, 0, some e)) ∧
    (mainModel (fun _ => .error e)
        ([ProbeOutcome.exn, ProbeOutcome.exn, ProbeOutcome.exn] ++ rest)
        mp c aP uP
      = (some e, cleanupSeq (some uP) (some (stopIfRunning c)) (some aP))) := by
  exact ⟨rfl, rfl⟩

theorem maxByMtime_mem (xs : List Entry) (y : Entry) :
    maxByMtime xs = some y → y ∈ xs := by
  induction xs with
  | nil => intro h; exact absurd h (by simp [maxByMtime])
  | cons x xs ih =>
    intro h
    rw [maxByMtime] at h
    cases hm : maxByMtime xs with
    | none =>
      rw [hm] at h
      simp at h
      simp [h]
    | some z =>
      simp only [hm] at h
      by_cases hgt : z.2.1 > x.2.1
      · rw [if_pos hgt] at h
        simp at h
        exact List.mem_cons_of_mem x (ih (h ▸ hm))
      · rw [if_neg hgt] at h
        simp at h
        simp [h]

theorem maxByMtime_eq_none (xs : List Entry) :
    maxByMtime xs = none ↔ xs = [] := by
  cases xs with
  | nil => simp [maxByMtime]
  | cons x xs =>
    simp only [maxByMtime]
    cases maxByMtime xs with
    | none => simp
    | some y =>
      by_cases h : y.2.1 > x.2.1 <;> simp [h]

theorem getFile_some_mem (files : List Entry) (nm : FileName) (v : Nat × Nat) :
    getFile files nm = some v → (nm, v) ∈ files := by
  induction files with
  | nil => intro h; exact absurd h (by simp [getFile])
  | cons e rest ih =>
    intro h
    rw [getFile] at h
    by_cases he : e.1 = nm
    · rw [if_pos he] at h
      obtain ⟨a, b⟩ := e
      simp at he h
      subst he
      subst h
      exact List.mem_cons_self _ _
    · rw [if_neg he] at h
      exact List.mem_cons_of_mem e (ih h)

theorem mem_existsFile (files : List Entry) (nm : FileName) (v : Nat × Nat)
    (h : (nm, v) ∈ files) : existsFile files nm = true := by
  induction files with
  | nil => exact absurd h (by simp)
  | cons e rest ih =>
    rw [existsFile, getFile]
    by_cases he : e.1 = nm
    · rw [if_pos he]; rfl
    · rw [if_neg he]
      rcases List.mem_cons.mp h with heq | hmem
      · exact absurd (by rw [← heq]) he
      · exact ih hmem

theorem getFile_setFile (files : List Entry) (nm : FileName) (mt ct : Nat) :
    getFile (setFile files nm mt ct) nm = some (mt, ct) := by
  induction files with
  | nil => simp [setFile, getFile]
  | cons e rest ih =>
    rw [setFile]
    by_cases he : e.1 = nm
    · rw [if_pos he, getFile, if_pos rfl]
    · rw [if_neg he, getFile, if_neg he]
      exact ih

/-- If no `*.tar.gz` candidate exists, `production.tar.gz` in
particular does not exist (it matches the glob). -/
theorem latest_none_no_production (files : List Entry)
    (h : latest_model_tar files = none) :
    existsFile files FileName.production = false := by
  rw [latest_model_tar, maxByMtime_eq_none] at h
  cases hex : existsFile files FileName.production with
  | false => rfl
  | true =>
    rw [existsFile] at hex
    cases hg : getFile files FileName.production with
    | none => rw [hg] at hex; exact absurd hex (by simp)
    | some v =>
      have hmem := getFile_some_mem files FileName.production v hg
      have : (FileName.production, v) ∈ files.filter (fun e => isTarGz e.1) :=
        List.mem_filter.mpr ⟨hmem, rfl⟩
      rw [h] at this
      exact absurd this (by simp)

/-- What `syncProd` — the tail of `ensure_model` — guarantees once a
most-recent candidate `l` is in hand (so `l` names an existing file):
the result is `production.tar.gz` or `l` itself and always exists;
when the copy succeeds the result is `production.tar.gz`, with its
content refreshed from `l` whenever it was missing or outdated; when
the copy fails nothing is written, and the fresh candidate is returned
directly only if no `production.tar.gz` exists at all. -/
theorem syncProd_spec (files : List Entry) (l : Entry) (copyOk : Bool)
    (now : Nat) (hmem : existsFile files l.1 = true) :
    ((syncProd files l copyOk now).2 = Except.ok FileName.production ∨
     (syncProd files l copyOk now).2 = Except.ok l.1) ∧
    (∃ nm, (syncProd files l copyOk now).2 = Except.ok nm ∧
      existsFile (syncProd files l copyOk now).1 nm = true) ∧
    (copyOk = true →
      (syncProd files l copyOk now).2 = Except.ok FileName.production) ∧
    (copyOk = true → needSync files l = true →
      getFile (syncProd files l copyOk now).1 FileName.production
        = some (now, l.2.2)) ∧
    (copyOk = false →
      (syncProd files l copyOk now).1 = files ∧
      (existsFile files FileName.production = false →
        (syncProd files l copyOk now).2 = Except.ok l.1)) := by
  cases copyOk with
  | false =>
    have hfs : (syncProd files l false now).1 = files := by
      simp [syncProd]
    refine ⟨?_, ?_, ?_, ?_, ?_⟩
    · cases hex : existsFile files FileName.production with
      | true => exact Or.inl (by simp [syncProd, hex])
      | false => exact Or.inr (by simp [syncProd, hex])
    · cases hex : existsFile files FileName.production with
      | true =>
        exact ⟨FileName.production, by simp [syncProd, hex],
          by rw [hfs]; exact hex⟩
      | false =>
        exact ⟨l.1, by simp [syncProd, hex], by rw [hfs]; exact hmem⟩
    · intro hcontra; exact nomatch hcontra
    · intro hcontra; exact nomatch hcontra
    · intro _
      exact ⟨hfs, fun hex => by simp [syncProd, hex]⟩
  | true =>
    cases hn : needSync files l with
    | true =>
      have hfs : (syncProd files l true now).1
          = setFile files FileName.production now l.2.2 := by
        simp [syncProd, hn]
      have hget : getFile (syncProd files l true now).1 FileName.production
          = some (now, l.2.2) := by
        rw [hfs]; exact getFile_setFile files FileName.production now l.2.2
      have hex : existsFile (syncProd files l true now).1 FileName.production
          = true := by
        rw [existsFile, hget]; rfl
      have hr2 : (syncProd files l true now).2
          = Except.ok FileName.production := by
        simp [syncProd, hn, existsFile, getFile_setFile]
      refine ⟨Or.inl hr2, ⟨FileName.production, hr2, hex⟩, fun _ => hr2,
        fun _ _ => hget, ?_⟩
      intro hcontra; exact nomatch hcontra
    | false =>
      have hfs : (syncProd files l true now).1 = files := by
        simp [syncProd, hn]
      have hex : existsFile files FileName.production = true := by
        rw [needSync] at hn
        cases hg : getFile files FileName.production with
        | none => rw [hg] at hn; exact absurd hn (by simp)
        | some v => rw [existsFile, hg]; rfl
      have hr2 : (syncProd files l true now).2
          = Except.ok FileName.production := by
        simp [syncProd, hn, hex]
      refine ⟨Or.inl hr2, ⟨FileName.production, hr2, by rw [hfs]; exact hex⟩,
        fun _ => hr2, ?_, ?_⟩
      · intro _ hc
        exact nomatch hc
      · intro hcontra; exact nomatch hcontra

/-- C1 (amended): when at least one `*.tar.gz` candidate exists,
`ensure_model` never errors and returns a path that exists on disk,
namely `production.tar.gz` or the most-recent candidate itself.  When
the synchronizing copy succeeds, the result is `production.tar.gz`,
freshly rewritten with the candidate's content whenever it was missing
or outdated.  When the copy fails, nothing is written and the
most-recent candidate is returned directly only if `production.tar.gz`
does not exist; an existing (possibly stale) `production.tar.gz` is
returned as-is. -/
theorem ensure_model_with_candidate_C1 (files : List Entry)
    (build : List Entry → List Entry × Bool) (copyOk : Bool) (now : Nat)
    (l : Entry) (h : latest_model_tar files = some l) :
    ((ensure_model files build copyOk now).2 = Except.ok FileName.production ∨
     (ensure_model files build copyOk now).2 = Except.ok l.1) ∧
    (∃ nm, (ensure_model files build copyOk now).2 = Except.ok nm ∧
      existsFile (ensure_model files build copyOk now).1 nm = true) ∧
    (copyOk = true →
      (ensure_model files build copyOk now).2 = Except.ok FileName.production) ∧
    (copyOk = true → needSync files l = true →
      getFile (ensure_model files build copyOk now).1 FileName.production
        = some (now, l.2.2)) ∧
    (copyOk = false →
      (ensure_model files build copyOk now).1 = files ∧
      (existsFile files FileName.production = false →
        (ensure_model files build copyOk now).2 = Except.ok l.1)) := by
  have hred : ensure_model files build copyOk now = syncProd files l copyOk now := by
    simp [ensure_model, h]
  have hmem : existsFile files l.1 = true := by
    have hf := maxByMtime_mem (files.filter (fun e => isTarGz e.1)) l h
    exact mem_existsFile files l.1 l.2 (List.mem_filter.mp hf).1
  rw [hred]
  exact syncProd_spec files l copyOk now hmem

/-- Witness for C1 (amended) at a concrete input: a lone candidate and
a succeeding copy produce a synchronized `production.tar.gz`. -/
theorem ensure_model_with_candidate_C1_witness :
    getFile (ensure_model [(FileName.model 0, 5, 200)]
        (fun f => (f, false)) true 9).1 FileName.production
      = some (9, 200) :=
  (ensure_model_with_candidate_C1 [(FileName.model 0, 5, 200)]
    (fun f => (f, false)) true 9 (FileName.model 0, 5, 200)
    rfl).2.2.2.1 rfl rfl

/-- Counterexample to C1 as stated: in a directory where a stale
`production.tar.gz` (mtime 0, content 100) coexists with a newer
candidate (mtime 5, content 200), and the synchronizing copy fails,
`ensure_model` returns the stale `production.tar.gz` — which is
neither the most-recently-modified candidate nor synchronized with it
— rather than falling back to the freshly selected candidate. -/
theorem ensure_model_claim_cex_C1 :
    (latest_model_tar
        [(FileName.production, 0, 100), (FileName.model 0, 5, 200)]
      = some (FileName.model 0, 5, 200)) ∧
    ((ensure_model
        [(FileName.production, 0, 100), (FileName.model 0, 5, 200)]
        (fun f => (f, false)) false 10).2
      = Except.ok FileName.production) ∧
    ¬((ensure_model
        [(FileName.production, 0, 100), (FileName.model 0, 5, 200)]
        (fun f => (f, false)) false 10).2
        = Except.ok (FileName.model 0) ∨
      ((ensure_model
          [(FileName.production, 0, 100), (FileName.model 0, 5, 200)]
          (fun f => (f, false)) false 10).2
          = Except.ok FileName.production ∧
        (getFile (ensure_model
            [(FileName.production, 0, 100), (FileName.model 0, 5, 200)]
            (fun f => (f, false)) false 10).1 FileName.production).map
            (fun v => v.2)
          = (getFile (ensure_model
              [(FileName.production, 0, 100), (FileName.model 0, 5, 200)]
              (fun f => (f, false)) false 10).1 (FileName.model 0)).map
              (fun v => v.2))) := by
  decide

/-- C2: with zero candidates, `ensure_model` runs the build step; if
the build exits non-zero it aborts with the build failure, and if the
build exits zero but still leaves no candidate it aborts with the
no-model error; in both cases the directory is exactly what the build
left behind — `ensure_model` writes no `production.tar.gz` — and in
the second case no `production.tar.gz` can exist at all. -/
theorem ensure_model_no_candidates_C2 (files : List Entry)
    (build : List Entry → List Entry × Bool) (copyOk : Bool) (now : Nat)
    (h : latest_model_tar files = none) :
    ((build files).2 = false →
      ensure_model files build copyOk now
        = ((build files).1, Except.error EnsureErr.buildFailure)) ∧
    ((build files).2 = true → latest_model_tar (build files).1 = none →
      ensure_model files build copyOk now
        = ((build files).1, Except.error EnsureErr.trainedButNoModel) ∧
      existsFile (build files).1 FileName.production = false) := by
  constructor
  · intro hb
    simp [ensure_model, h, hb]
  · intro hb hl
    exact ⟨by simp [ensure_model, h, hb, hl],
      latest_none_no_production (build files).1 hl⟩

/-- Witness for C2 at a concrete input: an empty directory and a
failing build step abort with `buildFailure` and write nothing. -/
theorem ensure_model_no_candidates_C2_witness :
    ensure_model [(FileName.other 0, 1, 1)] (fun f => (f, false)) true 0
      = ([(FileName.other 0, 1, 1)], Except.error EnsureErr.buildFailure) :=
  (ensure_model_no_candidates_C2 [(FileName.other 0, 1, 1)]
    (fun f => (f, false)) true 0 rfl).1 rfl
